import Mathlib

/-!
Verification of the credit-analytics calibration and valuation engine.

Shallow embedding of the core of the `credit-analytics` repository:

* `src/src/hazard_rate.py` — `HazardRateEngine`: market-data validation,
  hazard-rate bootstrapping from a CDS spread curve, survival probabilities;
* `src/src/basis_analysis.py` — `BasisAnalyzer`: basis computation, signal
  classification, stress test;
* `src/src/pricing.py` — `SyntheticPricer`: yield-to-maturity Newton iteration.

Python floats are embedded as exact rationals (`ℚ`); the only transcendental
operation, `exp`, is taken over `ℝ`. Curves (Python dicts tenor → value) are
embedded as association lists, iterated in sorted-key order exactly as the
Python code does via `sorted(...)`; sortedness of the key list is carried as
an explicit hypothesis where a theorem needs it. The external root-finder
`scipy.optimize.fsolve` is modelled by an oracle parameter recording, per
bootstrap node, whether the call raised an exception or returned a value and
a residual — the repository's own control flow around that call is embedded
verbatim.
-/

namespace CreditAnalytics

/-- Constant `HazardRateEngine.MIN_HAZARD_RATE = 1e-6` (hazard_rate.py line 31). -/
def MIN_HAZARD_RATE : ℚ := 1 / 1000000

/-- Constant `HazardRateEngine.MAX_HAZARD_RATE = 1.0` (hazard_rate.py line 32). -/
def MAX_HAZARD_RATE : ℚ := 1

/-- Bond fields used by `_validate_market_data` (hazard_rate.py lines 71–83). -/
structure Bond where
  recovery_rate : ℚ
deriving DecidableEq

/-- The market snapshot as `_validate_market_data` sees it: a dict that may or
may not carry each of the three required keys.  `none` models a missing key. -/
structure MarketData where
  bond : Option Bond
  cds_curve : Option (List (ℚ × ℚ))
  treasury_curve : Option (List (ℚ × ℚ))
deriving DecidableEq

/-- Embedding of `HazardRateEngine._validate_market_data` (hazard_rate.py lines 71–83).
Returns `true` when the data passes (no `ValueError`), `false` when any of the
three checks the code actually performs fails: a required key among
`bond` / `cds_curve` / `treasury_curve` missing, the CDS curve empty, or the
recovery rate outside `[0, 1]`.  The code performs no check on the sign of the
spreads. -/
def validate_market_data (d : MarketData) : Bool :=
  match d.bond, d.cds_curve, d.treasury_curve with
  | some b, some cds, some _ =>
      !cds.isEmpty && decide (0 ≤ b.recovery_rate) && decide (b.recovery_rate ≤ 1)
  | _, _, _ => false

/-- Outcome of one external `scipy.optimize.fsolve` call at a bootstrap node:
either it raised (`err`, the `except Exception` path of hazard_rate.py lines
276–279) or it returned a solved value together with the residual
`info['fvec'][0]` (lines 257–261). -/
inductive SolverResult where
  | ok : ℚ → ℚ → SolverResult
  | err : SolverResult
deriving DecidableEq

/-- Scalar `np.clip(x, lo, hi)`. -/
def clip (x lo hi : ℚ) : ℚ := min (max x lo) hi

/-- Embedding of `HazardRateEngine._solve_for_hazard_rate` (hazard_rate.py lines 189–279),
with the `fsolve` call abstracted into its outcome `res`.  On a normal return
the residual is only inspected for a warning log (line 261) and the solved
value is clipped into `[MIN_HAZARD_RATE, MAX_HAZARD_RATE]` (lines 268–274);
on an exception the credit-triangle fallback `spread / (1 - recovery)` is
returned unclipped (line 279). `spread` is in decimal (already divided by
10000). -/
def solve_for_hazard_rate (spread recovery : ℚ) (res : SolverResult) : ℚ :=
  match res with
  | .ok lam _residual => clip lam MIN_HAZARD_RATE MAX_HAZARD_RATE
  | .err => spread / (1 - recovery)

/-- The loop body of `HazardRateEngine._bootstrap` (hazard_rate.py lines
164–187), over the spread curve already in ascending-tenor order (the code
iterates `sorted(self.cds_curve.keys())`).  `i` is the node index; node 0 uses
the closed-form credit triangle `spread / (1 - recovery)` (line 173, no
clipping), every later node the solver wrapper.  The solver oracle is indexed
by node position. -/
def bootstrapAux (recovery : ℚ) (solver : ℕ → SolverResult) :
    ℕ → List (ℚ × ℚ) → List (ℚ × ℚ)
  | _, [] => []
  | i, (tenor, spread_bps) :: rest =>
      let spread := spread_bps / 10000
      let lam :=
        if i = 0 then spread / (1 - recovery)
        else solve_for_hazard_rate spread recovery (solver i)
      (tenor, lam) :: bootstrapAux recovery solver (i + 1) rest

/-- Embedding of `HazardRateEngine._bootstrap`: run the node loop from index 0. -/
def bootstrap (recovery : ℚ) (solver : ℕ → SolverResult)
    (sorted_curve : List (ℚ × ℚ)) : List (ℚ × ℚ) :=
  bootstrapAux recovery solver 0 sorted_curve

/-- Embedding of `HazardRateEngine.__init__` (hazard_rate.py lines 35–69): validate first,
and only if validation passes run `_bootstrap`.  A failed validation is the
`ValueError` path, raised before any calibration. -/
def initEngine (d : MarketData) (solver : ℕ → SolverResult)
    (sorted_curve : List (ℚ × ℚ)) : Except String (List (ℚ × ℚ)) :=
  if validate_market_data d then
    match d.bond with
    | some b => .ok (bootstrap b.recovery_rate solver sorted_curve)
    | none => .error "ValidationError"
  else .error "ValidationError"

/-- The loop of `HazardRateEngine.survival_prob` (hazard_rate.py lines
100–116), computing the cumulative hazard `∫₀ᵗ λ(s) ds` over the
piecewise-constant curve, given as `(tenor, λ)` pairs in ascending-tenor
order (the code iterates `sorted(self.hazard_rates.keys())`).  `prev` is
`prev_t`, `acc` the running `cumulative_hazard`.  Within the loop the code
returns early as soon as `t ≤ tenor`, adding the partial segment; when the
loop completes it extrapolates from the last tenor with the last hazard rate
(lines 114–116). -/
def cumulative_hazard (t : ℚ) : ℚ → ℚ → List (ℚ × ℚ) → ℚ
  | _prev, acc, [] => acc
  | prev, acc, (tenor, lam) :: rest =>
      if t ≤ tenor then acc + lam * (t - prev)
      else
        match rest with
        | [] => acc + lam * (tenor - prev) + lam * (t - tenor)
        | _ :: _ => cumulative_hazard t tenor (acc + lam * (tenor - prev)) rest

/-- Embedding of `HazardRateEngine.survival_prob` (hazard_rate.py lines 85–118):
`t ≤ 0 → 1.0`, otherwise `exp(-cumulative_hazard)`.  The curve is the
engine's `hazard_rates` dict in sorted-key order. -/
noncomputable def survival_prob (curve : List (ℚ × ℚ)) (t : ℚ) : ℝ :=
  if t ≤ 0 then 1 else Real.exp (-((cumulative_hazard t 0 0 curve : ℚ) : ℝ))

/-- The five trading signals of `BasisAnalyzer.analyze`
(basis_analysis.py lines 159–173). -/
inductive TradeSignal where
  | strongNegative
  | moderateNegative
  | strongPositive
  | moderatePositive
  | neutral
deriving DecidableEq

/-- The signal cascade of `BasisAnalyzer.analyze` (basis_analysis.py lines
159–173): `if basis < -20 … elif basis < 0 … elif basis > 20 …
elif basis > 0 … else neutral`. -/
def classify_basis (basis : ℚ) : TradeSignal :=
  if basis < -20 then .strongNegative
  else if basis < 0 then .moderateNegative
  else if basis > 20 then .strongPositive
  else if basis > 0 then .moderatePositive
  else .neutral

/-- Embedding of `self.market_data['cds_curve'].get(reference_cds_tenor, 0)`
(basis_analysis.py line 153): dict lookup defaulting to 0. -/
def lookup_spread (curve : List (ℚ × ℚ)) (tenor : ℚ) : ℚ :=
  match curve.find? (fun p => p.1 = tenor) with
  | some p => p.2
  | none => 0

/-- The basis computation and signal of `BasisAnalyzer.analyze`
(basis_analysis.py lines 153–173) for a given reference tenor, with the
Z-spread (in bps) already computed: `basis = cds_spread − z_spread_bps`,
then the signal cascade. -/
def analyze_basis (curve : List (ℚ × ℚ)) (z_spread_bps : ℚ) (ref : ℚ) :
    ℚ × TradeSignal :=
  let cds_spread := lookup_spread curve ref
  let basis := cds_spread - z_spread_bps
  (basis, classify_basis basis)

/-- One scenario of `BasisAnalyzer.stress_test_basis` shocks the curve by
setting every tenor's spread to `base_cds + shock`
(basis_analysis.py lines 299–300). -/
def shockCurve (base shock : ℚ) (curve : List (ℚ × ℚ)) : List (ℚ × ℚ) :=
  curve.map (fun p => (p.1, base + shock))

/-- The scenario loop of `BasisAnalyzer.stress_test_basis` (basis_analysis.py
lines 295–314) acting on the analyzer's curve state.  Per shock: copy the
current curve (`original_curve = ….copy()`, line 297), overwrite every
tenor's spread with `base_cds + shock` (lines 299–300) — that shocked curve
is what the recomputed `analyze()` sees (line 303) — then restore the copy
(line 314) before the next shock.  Returns the list of curves the scenarios
analyzed and the final curve state. -/
def stress_test_basis (base : ℚ) :
    List ℚ → List (ℚ × ℚ) → List (List (ℚ × ℚ)) × List (ℚ × ℚ)
  | [], curve => ([], curve)
  | shock :: rest, curve =>
      let original := curve
      let shocked := shockCurve base shock curve
      let r := stress_test_basis base rest original
      (shocked :: r.1, r.2)

/-- Embedding of `bond_price_at_ytm` inside `SyntheticPricer.calculate_ytm`
(pricing.py lines 212–218): the times grid is `k / frequency` for
`k = 1, …, n` and the exponent `t * frequency` is exactly `k`; the last
payment (`k = n`) adds the face value. -/
def bond_price_at_ytm (coupon_rate face_value : ℚ) (frequency n : ℕ)
    (ytm : ℚ) : ℚ :=
  (List.range n).foldl
    (fun pv k =>
      pv + (coupon_rate / frequency * face_value
            + if k + 1 = n then face_value else 0)
           / (1 + ytm / frequency) ^ (k + 1))
    0

/-- One Newton-Raphson update of `SyntheticPricer.calculate_ytm`
(pricing.py lines 231–238): numeric derivative with `epsilon = 1e-6`, then
`ytm - (price_calc - price) / derivative`. -/
def newton_step (price : ℚ) (f : ℚ → ℚ) (y : ℚ) : ℚ :=
  y - (f y - price) / ((f (y + 1 / 1000000) - f y) / (1 / 1000000))

/-- The Newton loop of `SyntheticPricer.calculate_ytm` (pricing.py lines
220–241): up to `fuel` iterations; return the current iterate when the price
matches within `1e-6`; break (returning the current iterate) when the numeric
derivative falls below `1e-10` in absolute value; when the budget is
exhausted, return the last iterate. -/
def calculate_ytm_loop (price : ℚ) (f : ℚ → ℚ) : ℕ → ℚ → ℚ
  | 0, y => y
  | fuel + 1, y =>
      let price_calc := f y
      if |price_calc - price| < 1 / 1000000 then y
      else
        let derivative := (f (y + 1 / 1000000) - price_calc) / (1 / 1000000)
        if |derivative| < 1 / 10000000000 then y
        else calculate_ytm_loop price f fuel (y - (price_calc - price) / derivative)

/-- Embedding of `SyntheticPricer.calculate_ytm` (pricing.py lines 194–241): Newton
iteration on `bond_price_at_ytm`, initial guess the coupon rate, budget 100
iterations. -/
def calculate_ytm (coupon_rate face_value : ℚ) (frequency n : ℕ)
    (price : ℚ) : ℚ :=
  calculate_ytm_loop price (bond_price_at_ytm coupon_rate face_value frequency n)
    100 coupon_rate

/-! ## Concrete snapshots used as inputs to counterexamples and witnesses -/

/-- A structurally well-formed snapshot whose only CDS quote is the
non-positive spread −5 bps: `_validate_market_data` accepts it. -/
def nonPositiveSpreadSnapshot : MarketData :=
  { bond := some { recovery_rate := 2/5 }
    cds_curve := some [(5, -5)]
    treasury_curve := some [(1, 1/25)] }

/-- A structurally well-formed snapshot whose only CDS quote is 20000 bps
(spread 2.0 in decimal) with recovery 0.40: `_validate_market_data` accepts
it, and the credit-triangle first node is `2 / 0.6 = 10/3 > MAX_HAZARD_RATE`. -/
def extremeSpreadSnapshot : MarketData :=
  { bond := some { recovery_rate := 2/5 }
    cds_curve := some [(5, 20000)]
    treasury_curve := some [(1, 1/25)] }

/-! ## Theorems -/

/-- Claim C7: the trading signal of `BasisAnalyzer.analyze` is determined by
exactly the five non-overlapping cases: `b < −20` strong negative;
`−20 ≤ b < 0` moderate negative; `b > 20` strong positive; `0 < b ≤ 20`
moderate positive; `b = 0` neutral. -/
theorem analyze_signal_classification (b : ℚ) :
    (classify_basis b = .strongNegative ↔ b < -20) ∧
    (classify_basis b = .moderateNegative ↔ -20 ≤ b ∧ b < 0) ∧
    (classify_basis b = .strongPositive ↔ 20 < b) ∧
    (classify_basis b = .moderatePositive ↔ 0 < b ∧ b ≤ 20) ∧
    (classify_basis b = .neutral ↔ b = 0) := by
  unfold classify_basis
  split_ifs with h1 h2 h3 h4 <;>
    refine ⟨?_, ?_, ?_, ?_, ?_⟩ <;> simp <;>
      first
      | linarith
      | (constructor <;> linarith)
      | (intro h; linarith)

/-- Claim C3: the first bootstrap node is the closed-form credit triangle
`(spread_bps / 10000) / (1 − R)`, independent of the solver oracle. -/
theorem bootstrap_first_node (recovery : ℚ) (solver : ℕ → SolverResult)
    (t s : ℚ) (rest : List (ℚ × ℚ))
    (h0 : 0 ≤ recovery) (h1 : recovery < 1) :
    (bootstrap recovery solver ((t, s) :: rest)).head? =
      some (t, s / 10000 / (1 - recovery)) := by
  simp [bootstrap, bootstrapAux]

/-- Witness for C3 at the spec's own check values: spread 80 bps, recovery
0.40 give first node `0.0080 / 0.60`, which is within `1e-6` of `0.013333`. -/
theorem bootstrap_first_node_witness :
    (bootstrap (2/5) (fun _ => .err) [(1, 80)]).head? =
      some ((1 : ℚ), (80 : ℚ) / 10000 / (1 - 2/5)) ∧
    |(80 : ℚ) / 10000 / (1 - 2/5) - 13333/1000000| < 1/1000000 :=
  ⟨bootstrap_first_node (2/5) (fun _ => .err) 1 80 []
      (by norm_num) (by norm_num), by rw [abs_sub_lt_iff]; norm_num⟩

/-- Counterexample to claim C6: a snapshot whose spread curve contains the
non-positive spread −5 bps passes `_validate_market_data` and constructs the
engine without any error: the claimed "non-positive spread ⇒ validation
error" direction is false. -/
theorem validate_accepts_nonpositive_spread :
    validate_market_data nonPositiveSpreadSnapshot = true ∧
    nonPositiveSpreadSnapshot.cds_curve = some [(5, -5)] ∧ ((-5 : ℚ) < 0) ∧
    initEngine nonPositiveSpreadSnapshot (fun _ => .err) [(5, -5)] =
      .ok [(5, (-5 : ℚ) / 10000 / (1 - 2/5))] := by
  refine ⟨?_, rfl, by norm_num, ?_⟩
  · simp [validate_market_data, nonPositiveSpreadSnapshot]
    norm_num
  · simp [initEngine, nonPositiveSpreadSnapshot, bootstrap, bootstrapAux,
      validate_market_data]
    norm_num

/-- Claim C6 as amended: construction raises the validation error iff a required
key among bond/cds_curve/treasury_curve is missing, the spread curve is
empty, or the recovery rate is outside `[0, 1]`; it is raised before any
calibration, and non-positive spreads are not checked. -/
theorem initEngine_error_iff (d : MarketData) (solver : ℕ → SolverResult)
    (sorted_curve : List (ℚ × ℚ)) :
    (∃ e, initEngine d solver sorted_curve = .error e) ↔
      (d.bond = none ∨ d.cds_curve = none ∨ d.treasury_curve = none ∨
       d.cds_curve = some [] ∨
       (∃ b, d.bond = some b ∧ (b.recovery_rate < 0 ∨ 1 < b.recovery_rate))) := by
  obtain ⟨b, c, tc⟩ := d
  cases b <;> cases c <;> cases tc <;>
    simp [initEngine, validate_market_data, List.isEmpty_iff] <;>
    rename_i b c _
  · constructor
    · intro hc
      by_cases h : c = []
      · exact Or.inl h
      · refine Or.inr ?_
        by_cases h0 : 0 ≤ b.recovery_rate
        · by_cases h1' : b.recovery_rate ≤ 1
          · simp [h, h0, h1'] at hc
          · exact Or.inr (lt_of_not_le h1')
        · exact Or.inl (lt_of_not_le h0)
    · rintro (h | h | h)
      · simp [h]
      · simp [not_le.mpr h]
      · simp [not_le.mpr h]

/-- Claim C10: calling analyze with an explicit reference tenor that is not a key
of the CDS curve does not fail: the CDS spread defaults to 0, the basis is
the negation of the Z-spread (in bps), and a trading signal is produced. -/
theorem analyze_missing_reference_tenor (curve : List (ℚ × ℚ))
    (z_spread_bps ref : ℚ) (h : ∀ p ∈ curve, p.1 ≠ ref) :
    analyze_basis curve z_spread_bps ref =
      (-z_spread_bps, classify_basis (-z_spread_bps)) := by
  have hf : curve.find? (fun p => p.1 = ref) = none := by
    rw [List.find?_eq_none]
    intro p hp
    simp [h p hp]
  simp [analyze_basis, lookup_spread, hf]

/-- Witness for C10: a curve keyed only at tenor 5, queried at tenor 7,
with Z-spread 50 bps, yields basis −50 and the strong-negative signal. -/
theorem analyze_missing_reference_tenor_witness :
    analyze_basis [(5, 100)] 50 7 = (-50, .strongNegative) := by
  have h := analyze_missing_reference_tenor [(5, 100)] 50 7 (by norm_num)
  rw [h]
  norm_num [classify_basis]

/-- Claim C8: the stress test `stress_test_basis` leaves the analyzer's CDS curve exactly as it
was before the call, and each shock scenario analyzes the original curve with
every tenor's spread replaced by `base + shock` — no shock leaks into a later
scenario. -/
theorem stress_test_restores_curve (base : ℚ) (shocks : List ℚ)
    (curve : List (ℚ × ℚ)) :
    (stress_test_basis base shocks curve).2 = curve ∧
    (stress_test_basis base shocks curve).1 =
      shocks.map (fun s => shockCurve base s curve) := by
  induction shocks with
  | nil => simp [stress_test_basis]
  | cons shock rest ih =>
      simp [stress_test_basis, ih.1, ih.2]

/-- Position formula for the bootstrap loop: the node at position `i`
(starting the loop at index `j`) keeps its tenor and carries the
credit-triangle value at absolute index 0, the solver wrapper's value
elsewhere. -/
lemma bootstrapAux_get? (recovery : ℚ) (solver : ℕ → SolverResult) :
    ∀ (curve : List (ℚ × ℚ)) (j i : ℕ),
      (bootstrapAux recovery solver j curve).get? i =
        (curve.get? i).map (fun p =>
          (p.1, if j + i = 0 then p.2 / 10000 / (1 - recovery)
                else solve_for_hazard_rate (p.2 / 10000) recovery (solver (j + i))))
  | [], j, i => by simp [bootstrapAux]
  | (t, s) :: rest, j, 0 => by simp [bootstrapAux]
  | (t, s) :: rest, j, i + 1 => by
      have hj : j + 1 + i = j + (i + 1) := by omega
      have hne : j + (i + 1) ≠ 0 := by omega
      simp only [bootstrapAux, List.get?_cons_succ,
        bootstrapAux_get? recovery solver rest (j + 1) i, hj, if_neg hne]

/-- The bootstrap produces one node per input tenor. -/
lemma bootstrapAux_length (recovery : ℚ) (solver : ℕ → SolverResult) :
    ∀ (curve : List (ℚ × ℚ)) (j : ℕ),
      (bootstrapAux recovery solver j curve).length = curve.length
  | [], _ => rfl
  | _ :: rest, j => by
      simp [bootstrapAux, bootstrapAux_length recovery solver rest (j + 1)]

/-- Counterexample to claim C1: the snapshot with a single 20000 bps quote and
recovery 0.40 is accepted by validation, yet the calibrated curve's first
node is `2 / 0.6 = 10/3`, strictly above `MAX_HAZARD_RATE = 1`: the
credit-triangle first node is not clipped into the claimed bounds. -/
theorem hazard_bound_violated_at_first_node :
    validate_market_data extremeSpreadSnapshot = true ∧
    initEngine extremeSpreadSnapshot (fun _ => .err) [(5, 20000)] =
      .ok [(5, 10/3)] ∧
    ¬((10/3 : ℚ) ≤ MAX_HAZARD_RATE) := by
  refine ⟨?_, ?_, ?_⟩
  · simp [validate_market_data, extremeSpreadSnapshot]
    norm_num
  · simp [initEngine, extremeSpreadSnapshot, validate_market_data,
      bootstrap, bootstrapAux]
    norm_num
  · norm_num [MAX_HAZARD_RATE]

/-- Claim C1 as amended: every node other than the first whose solver call returns
normally is clipped into `[MIN_HAZARD_RATE, MAX_HAZARD_RATE]`; the first node
and the exception fallback are the unclipped credit triangle. -/
theorem solver_nodes_within_bounds (recovery : ℚ) (solver : ℕ → SolverResult)
    (curve : List (ℚ × ℚ)) (i : ℕ) (t s lam r : ℚ)
    (hi : 1 ≤ i) (hc : curve.get? i = some (t, s)) (hs : solver i = .ok lam r) :
    ∃ v, (bootstrap recovery solver curve).get? i = some (t, v) ∧
      MIN_HAZARD_RATE ≤ v ∧ v ≤ MAX_HAZARD_RATE := by
  refine ⟨clip lam MIN_HAZARD_RATE MAX_HAZARD_RATE, ?_, ?_, ?_⟩
  · rw [bootstrap, bootstrapAux_get? recovery solver curve 0 i, hc]
    have hiz : ¬(i = 0) := by omega
    simp only [Nat.zero_add, Option.map_some', if_neg hiz, hs,
      solve_for_hazard_rate]
  · exact le_min (le_max_right _ _) (by norm_num [MIN_HAZARD_RATE, MAX_HAZARD_RATE])
  · exact min_le_right _ _

/-- Witness for the amended C1 at a concrete two-tenor curve whose solver
returns 5 (clipped to 1) at node 2. -/
theorem solver_nodes_within_bounds_witness :
    ∃ v, (bootstrap (2/5) (fun _ => SolverResult.ok 5 0)
            [(1, 80), (5, 100)]).get? 1 = some (5, v) ∧
      MIN_HAZARD_RATE ≤ v ∧ v ≤ MAX_HAZARD_RATE :=
  solver_nodes_within_bounds (2/5) (fun _ => SolverResult.ok 5 0)
    [(1, 80), (5, 100)] 1 5 100 5 0 (le_refl 1) rfl rfl

/-- Counterexample to claim C2: a two-tenor bootstrap whose solver returns value
1/2 with residual 1 (far above the 1e-6 convergence tolerance) stores the
solver's value 1/2 at node 2, not the credit-triangle value
`0.0060 / 0.60 = 1/100`: non-convergence does not trigger the fallback, it
is only logged. -/
theorem nonconvergence_keeps_solver_value :
    bootstrap (2/5) (fun _ => SolverResult.ok (1/2) 1) [(1, 60), (5, 60)] =
      [(1, 1/100), (5, 1/2)] ∧
    (1 : ℚ) > 1/1000000 ∧
    ((1/2 : ℚ) ≠ 60 / 10000 / (1 - 2/5)) := by
  refine ⟨?_, by norm_num, by norm_num⟩
  simp [bootstrap, bootstrapAux, solve_for_hazard_rate, clip,
    MIN_HAZARD_RATE, MAX_HAZARD_RATE]
  norm_num

/-- Claim C2 as amended: when the solver call at node `i > 0` raises, that node's
hazard rate is the credit-triangle approximation `spreadᵢ/(1−R)` and
bootstrapping continues — the output still has one node per tenor, so no
exception propagates; a mere non-convergent residual keeps the solver's
clipped value. -/
theorem solver_exception_fallback (recovery : ℚ) (solver : ℕ → SolverResult)
    (curve : List (ℚ × ℚ)) (i : ℕ) (t s : ℚ)
    (hi : 1 ≤ i) (hc : curve.get? i = some (t, s)) (hs : solver i = .err) :
    (bootstrap recovery solver curve).get? i =
      some (t, s / 10000 / (1 - recovery)) ∧
    (bootstrap recovery solver curve).length = curve.length := by
  constructor
  · rw [bootstrap, bootstrapAux_get? recovery solver curve 0 i, hc]
    have hiz : ¬(i = 0) := by omega
    simp only [Nat.zero_add, Option.map_some', if_neg hiz, hs,
      solve_for_hazard_rate]
  · exact bootstrapAux_length recovery solver curve 0

/-- Witness for the amended C2: the solver raises at node 2 of a two-tenor
curve and the node degrades to `0.0100 / 0.60`. -/
theorem solver_exception_fallback_witness :
    (bootstrap (2/5) (fun _ => SolverResult.err) [(1, 80), (5, 100)]).get? 1 =
      some (5, (100 : ℚ) / 10000 / (1 - 2/5)) ∧
    (bootstrap (2/5) (fun _ => SolverResult.err) [(1, 80), (5, 100)]).length =
      ([(1, 80), (5, 100)] : List (ℚ × ℚ)).length :=
  solver_exception_fallback (2/5) (fun _ => SolverResult.err)
    [(1, 80), (5, 100)] 1 5 100 (le_refl 1) rfl rfl

/-- Unfolding equation for one pass of the `calculate_ytm` Newton loop. -/
lemma calculate_ytm_loop_succ (price : ℚ) (f : ℚ → ℚ) (fuel : ℕ) (y : ℚ) :
    calculate_ytm_loop price f (fuel + 1) y =
      if |f y - price| < 1 / 1000000 then y
      else if |(f (y + 1 / 1000000) - f y) / (1 / 1000000)| < 1 / 10000000000
        then y
        else calculate_ytm_loop price f fuel
          (y - (f y - price) / ((f (y + 1 / 1000000) - f y) / (1 / 1000000))) :=
  rfl

/-- The Newton loop of `calculate_ytm` always returns an iterate of the
Newton step, reached after at most `fuel` steps: each pass either stops
(returning the current iterate) or applies one Newton update. -/
lemma calculate_ytm_loop_orbit (price : ℚ) (f : ℚ → ℚ) :
    ∀ (fuel : ℕ) (y : ℚ), ∃ k ≤ fuel,
      calculate_ytm_loop price f fuel y = (newton_step price f)^[k] y
  | 0, y => ⟨0, le_refl 0, rfl⟩
  | fuel + 1, y => by
      by_cases h1 : |f y - price| < 1/1000000
      · exact ⟨0, Nat.zero_le _, by rw [calculate_ytm_loop_succ, if_pos h1]; rfl⟩
      · by_cases h2 : |(f (y + 1/1000000) - f y) / (1/1000000)| < 1/10000000000
        · exact ⟨0, Nat.zero_le _,
            by rw [calculate_ytm_loop_succ, if_neg h1, if_pos h2]; rfl⟩
        · obtain ⟨k, hk, he⟩ :=
            calculate_ytm_loop_orbit price f fuel (newton_step price f y)
          refine ⟨k + 1, by omega, ?_⟩
          rw [calculate_ytm_loop_succ, if_neg h1, if_neg h2,
            Function.iterate_succ_apply]
          exact he

/-- Claim C9: for every price input, the yield-to-maturity routine returns
(it is a total function — no exception path exists): the result is a Newton
iterate of the bond-price function reached from the coupon-rate initial
guess in at most 100 steps, whether the loop converged, hit a vanishing
derivative, or exhausted its budget — in the last two cases the last iterate
is returned. -/
theorem calculate_ytm_returns_newton_iterate (coupon_rate face_value : ℚ)
    (frequency n : ℕ) (price : ℚ) :
    ∃ k ≤ 100,
      calculate_ytm coupon_rate face_value frequency n price =
        (newton_step price
          (bond_price_at_ytm coupon_rate face_value frequency n))^[k]
          coupon_rate :=
  calculate_ytm_loop_orbit price
    (bond_price_at_ytm coupon_rate face_value frequency n) 100 coupon_rate

/-! ## Survival probability: monotonicity and flat extrapolation -/

/-- Unfolding equation of the `survival_prob` loop for a one-node curve. -/
lemma cumulative_hazard_singleton (t prev acc tenor lam : ℚ) :
    cumulative_hazard t prev acc [(tenor, lam)] =
      if t ≤ tenor then acc + lam * (t - prev)
      else acc + lam * (tenor - prev) + lam * (t - tenor) :=
  rfl

/-- Unfolding equation of the `survival_prob` loop for a curve with at least
two nodes. -/
lemma cumulative_hazard_cons_cons (t prev acc tenor lam : ℚ) (p : ℚ × ℚ)
    (rest : List (ℚ × ℚ)) :
    cumulative_hazard t prev acc ((tenor, lam) :: p :: rest) =
      if t ≤ tenor then acc + lam * (t - prev)
      else cumulative_hazard t tenor (acc + lam * (tenor - prev)) (p :: rest) :=
  rfl

/-- With non-negative hazard rates, tenors in ascending order past `prev`,
and `prev ≤ t`, the loop only ever adds to the accumulator. -/
lemma cumulative_hazard_ge (t : ℚ) :
    ∀ (curve : List (ℚ × ℚ)) (prev acc : ℚ),
      (∀ p ∈ curve, 0 ≤ p.2) →
      List.Chain (· ≤ ·) prev (curve.map Prod.fst) →
      prev ≤ t →
      acc ≤ cumulative_hazard t prev acc curve
  | [], _, acc, _, _, _ => le_refl acc
  | [(tenor, lam)], prev, acc, hr, hchain, ht => by
      rw [List.map_cons, List.chain_cons] at hchain
      have hlam : 0 ≤ lam := hr (tenor, lam) (by simp)
      rw [cumulative_hazard_singleton]
      split_ifs with h
      · nlinarith
      · push_neg at h
        nlinarith [hchain.1]
  | (tenor, lam) :: p :: rest, prev, acc, hr, hchain, ht => by
      rw [List.map_cons, List.chain_cons] at hchain
      have hlam : 0 ≤ lam := hr (tenor, lam) (by simp)
      rw [cumulative_hazard_cons_cons]
      split_ifs with h
      · nlinarith
      · push_neg at h
        have hrec := cumulative_hazard_ge t (p :: rest) tenor
          (acc + lam * (tenor - prev))
          (fun q hq => hr q (List.mem_cons_of_mem _ hq)) hchain.2 h.le
        nlinarith [hchain.1]

/-- With non-negative hazard rates and ascending tenors, the cumulative
hazard of the `survival_prob` loop is monotone non-decreasing in `t`. -/
lemma cumulative_hazard_mono (t1 t2 : ℚ) (h12 : t1 ≤ t2) :
    ∀ (curve : List (ℚ × ℚ)) (prev acc : ℚ),
      (∀ p ∈ curve, 0 ≤ p.2) →
      List.Chain (· ≤ ·) prev (curve.map Prod.fst) →
      cumulative_hazard t1 prev acc curve ≤ cumulative_hazard t2 prev acc curve
  | [], _, acc, _, _ => le_refl acc
  | [(tenor, lam)], prev, acc, hr, hchain => by
      rw [List.map_cons, List.chain_cons] at hchain
      have hlam : 0 ≤ lam := hr (tenor, lam) (by simp)
      rw [cumulative_hazard_singleton, cumulative_hazard_singleton]
      split_ifs with ha hb hb
      · nlinarith
      · push_neg at hb
        nlinarith
      · linarith
      · push_neg at ha
        nlinarith
  | (tenor, lam) :: p :: rest, prev, acc, hr, hchain => by
      rw [List.map_cons, List.chain_cons] at hchain
      have hlam : 0 ≤ lam := hr (tenor, lam) (by simp)
      have hr' : ∀ q ∈ p :: rest, 0 ≤ q.2 :=
        fun q hq => hr q (List.mem_cons_of_mem _ hq)
      rw [cumulative_hazard_cons_cons, cumulative_hazard_cons_cons]
      split_ifs with ha hb hb
      · nlinarith
      · push_neg at hb
        have hge := cumulative_hazard_ge t2 (p :: rest) tenor
          (acc + lam * (tenor - prev)) hr' hchain.2 hb.le
        nlinarith
      · linarith
      · exact cumulative_hazard_mono t1 t2 h12 (p :: rest) tenor
          (acc + lam * (tenor - prev)) hr' hchain.2

/-- Claim C4: with non-negative stored hazard rates (tenors positive and
ascending, as the sorted keys of the engine's dict are), `survival_prob` is
monotone non-increasing, and equals 1 at every `t ≤ 0`.  The non-emptiness
hypothesis restricts the statement to curves the engine can actually hold
(the Python loop indexes the last tenor and would fail on an empty dict). -/
theorem survival_prob_monotone (curve : List (ℚ × ℚ)) (hne : curve ≠ [])
    (hr : ∀ p ∈ curve, 0 ≤ p.2)
    (hchain : List.Chain (· < ·) 0 (curve.map Prod.fst)) :
    (∀ t1 t2 : ℚ, t1 < t2 → survival_prob curve t2 ≤ survival_prob curve t1) ∧
    (∀ t : ℚ, t ≤ 0 → survival_prob curve t = 1) := by
  have hchain' : List.Chain (· ≤ ·) 0 (curve.map Prod.fst) :=
    List.Chain.imp (fun _ _ h => le_of_lt h) hchain
  constructor
  · intro t1 t2 h12
    unfold survival_prob
    by_cases ht1 : t1 ≤ 0
    · rw [if_pos ht1]
      by_cases ht2 : t2 ≤ 0
      · rw [if_pos ht2]
      · rw [if_neg ht2]
        have hge := cumulative_hazard_ge t2 curve 0 0 hr hchain'
          (le_of_not_le ht2)
        calc Real.exp (-((cumulative_hazard t2 0 0 curve : ℚ) : ℝ)) ≤ 1 := by
              rw [Real.exp_le_one_iff, neg_nonpos]
              exact_mod_cast hge
          _ = 1 := rfl
    · have ht2 : ¬ t2 ≤ 0 := fun h => ht1 (le_of_lt (lt_of_lt_of_le h12 h))
      rw [if_neg ht1, if_neg ht2, Real.exp_le_exp, neg_le_neg_iff]
      exact_mod_cast cumulative_hazard_mono t1 t2 h12.le curve 0 0 hr hchain'
  · intro t ht
    simp [survival_prob, ht]

/-- A two-node curve shared by the survival-probability witnesses:
λ = 1% on (0, 1], 2% on (1, 3]. -/
def sampleCurve : List (ℚ × ℚ) := [(1, 1/100), (3, 1/50)]

/-- Witness for C4 at `sampleCurve`: survival at 5 is at most survival at 2,
and survival at −1 is exactly 1. -/
theorem survival_prob_monotone_witness :
    survival_prob sampleCurve 5 ≤ survival_prob sampleCurve 2 ∧
    survival_prob sampleCurve (-1) = 1 := by
  have h := survival_prob_monotone sampleCurve
    (by simp [sampleCurve])
    (by rintro p hp; simp [sampleCurve] at hp; rcases hp with h | h <;>
        rw [h] <;> norm_num)
    (by rw [show sampleCurve.map Prod.fst = [1, 3] from rfl]
        exact List.Chain.cons (by norm_num)
          (List.Chain.cons (by norm_num) List.Chain.nil))
  exact ⟨h.1 2 5 (by norm_num), h.2 (-1) (by norm_num)⟩

/-- In an ascending chain of tenors, the starting point is below the last
tenor. -/
lemma chain_lt_getLast? :
    ∀ (l : List (ℚ × ℚ)) (a : ℚ) (p : ℚ × ℚ),
      List.Chain (· < ·) a (l.map Prod.fst) → l.getLast? = some p → a < p.1
  | [(tenor, lam)], a, p, h, hp => by
      rw [List.map_cons, List.chain_cons] at h
      obtain rfl : (tenor, lam) = p := by simpa [List.getLast?] using hp
      exact h.1
  | (tenor, lam) :: q :: rest, a, p, h, hp => by
      rw [List.map_cons, List.chain_cons] at h
      rw [List.getLast?_cons_cons] at hp
      exact h.1.trans (chain_lt_getLast? (q :: rest) tenor p h.2 hp)

/-- Past the last tenor, the loop's cumulative hazard splits into the value
at the last tenor plus the last hazard rate times the overshoot: the code's
lines 114–116 extrapolate flat with the last λ. -/
lemma cumulative_hazard_extrapolate (t : ℚ) :
    ∀ (curve : List (ℚ × ℚ)) (prev acc Tn lamn : ℚ),
      List.Chain (· < ·) prev (curve.map Prod.fst) →
      curve.getLast? = some (Tn, lamn) →
      Tn < t →
      cumulative_hazard t prev acc curve =
        cumulative_hazard Tn prev acc curve + lamn * (t - Tn)
  | [(tenor, lam)], prev, acc, Tn, lamn, _, hp, ht => by
      obtain ⟨rfl, rfl⟩ : tenor = Tn ∧ lam = lamn := by
        simpa [List.getLast?, Prod.ext_iff] using hp
      rw [cumulative_hazard_singleton, cumulative_hazard_singleton,
        if_neg (not_le.mpr ht), if_pos (le_refl _)]
  | (tenor, lam) :: q :: rest, prev, acc, Tn, lamn, hchain, hp, ht => by
      rw [List.map_cons, List.chain_cons] at hchain
      rw [List.getLast?_cons_cons] at hp
      have htenor_lt : tenor < Tn :=
        chain_lt_getLast? (q :: rest) tenor (Tn, lamn) hchain.2 hp
      have ht' : ¬ t ≤ tenor := not_le.mpr (htenor_lt.trans ht)
      have hTn' : ¬ Tn ≤ tenor := not_le.mpr htenor_lt
      rw [cumulative_hazard_cons_cons, cumulative_hazard_cons_cons,
        if_neg ht', if_neg hTn']
      exact cumulative_hazard_extrapolate t (q :: rest) tenor
        (acc + lam * (tenor - prev)) Tn lamn hchain.2 hp ht

/-- Claim C5: beyond the last calibrated tenor `T_n` (with hazard `λ_n`),
`survival_prob` extrapolates flat:
`S(t) = S(T_n) · exp(−λ_n · (t − T_n))` for every `t > T_n` — it neither
fails nor decays with anything but the last node's rate. -/
theorem survival_prob_flat_extrapolation (curve : List (ℚ × ℚ))
    (Tn lamn t : ℚ)
    (hlast : curve.getLast? = some (Tn, lamn))
    (hchain : List.Chain (· < ·) 0 (curve.map Prod.fst))
    (ht : Tn < t) :
    survival_prob curve t =
      survival_prob curve Tn *
        Real.exp (-((lamn : ℝ) * ((t : ℝ) - (Tn : ℝ)))) := by
  have hTn : 0 < Tn := chain_lt_getLast? curve 0 (Tn, lamn) hchain hlast
  have htpos : 0 < t := hTn.trans ht
  have hext := cumulative_hazard_extrapolate t curve 0 0 Tn lamn hchain
    hlast ht
  unfold survival_prob
  rw [if_neg (not_le.mpr htpos), if_neg (not_le.mpr hTn), hext, ← Real.exp_add]
  congr 1
  push_cast
  ring

/-- Witness for C5 at `sampleCurve`: survival at 5 equals survival at the
last tenor 3 times `exp(−0.02·(5−3))`. -/
theorem survival_prob_flat_extrapolation_witness :
    survival_prob sampleCurve 5 =
      survival_prob sampleCurve 3 *
        Real.exp (-(((1/50 : ℚ) : ℝ) * (((5 : ℚ) : ℝ) - ((3 : ℚ) : ℝ)))) :=
  survival_prob_flat_extrapolation sampleCurve 3 (1/50) 5 rfl
    (by rw [show sampleCurve.map Prod.fst = [1, 3] from rfl]
        exact List.Chain.cons (by norm_num)
          (List.Chain.cons (by norm_num) List.Chain.nil))
    (by norm_num)

end CreditAnalytics
